import Mathlib

/-!
Verification of the speech-to-text CLI (`src/stt.py`).

The repository is orchestration glue around an external streaming speech
recognizer (Vosk `KaldiRecognizer`), an audio-device capture subsystem
(`sounddevice`) and the filesystem.  Following the spec, those external
collaborators are treated as opaque: we embed them as abstract, deterministic
state machines (a `RecognizerAPI` record of state transformers, a filesystem
map `String → Option WavFile`, a directory-existence predicate
`String → Bool`), and translate the repository's own control flow —
`load_english_model`, `transcribe_wav`, the capture `callback`,
`transcribe_mic`, `main` — into total Lean functions over them.

Each pipeline function also produces an explicit trace of the externally
visible recognizer/file operations it performs (`Ev`), so that ordering
properties ("the final result is queried at most once, only after the input
is exhausted", "no frame is read after a header mismatch") become statements
about the trace.  Console output of the microphone pipeline is modelled as a
list of structured `MicLine` values, one per `print` statement that executes.
-/

/-- Opaque model handle: `Model(path)` from the vosk library, carrying the
directory path it was loaded from. -/
structure Model where
  path : String
deriving DecidableEq, Repr

/-- Header fields and audio content of a WAV file as exposed by the `wave`
module: `getnchannels`, `getsampwidth`, `getframerate`, and the sequence of
audio frames (samples abstracted as `Nat`).  `readframes n` returns the next
`n` frames of this list. -/
structure WavFile where
  nchannels : Nat
  sampwidth : Nat
  framerate : Nat
  frames : List Nat
deriving DecidableEq, Repr

/-- Errors raised by `transcribe_wav`: `FileNotFoundError` for a missing
path, `ValueError` for a header that is not mono / 16-bit / 16000 Hz. -/
inductive STTErr where
  | fileNotFound (msg : String)
  | formatMismatch (msg : String)
deriving DecidableEq, Repr

/-- The abstract streaming recognizer (vosk `KaldiRecognizer`), embedded as a
record of deterministic state transformers over an arbitrary state type `σ`:
`newRec` is the constructor `KaldiRecognizer(model, rate)`, `setWords` is
`SetWords(True)` (a passthrough configuration call), `acceptWaveform` is
`AcceptWaveform(data)` returning the utterance-boundary flag,
`result`/`interimResult`/`finalResult` are `Result()`/`PartialResult()`/
`FinalResult()`, each abstracted at the level of the `"text"` (resp.
`"partial"`) field of the JSON they return. -/
structure RecognizerAPI (σ : Type) where
  newRec : Model → Nat → σ
  setWords : σ → σ
  acceptWaveform : σ → List Nat → σ × Bool
  result : σ → σ × String
  interimResult : σ → σ × String
  finalResult : σ → σ × String

/-- Externally visible operations performed by a pipeline, recorded in order:
a `wf.readframes` call returning `data`, an `AcceptWaveform data` call and
its boundary flag, a `Result()` query, a `PartialResult()` query, and a
`FinalResult()` query (each with the text it produced). -/
inductive Ev where
  | readFrames (data : List Nat)
  | accept (data : List Nat) (boundary : Bool)
  | queryResult (text : String)
  | queryInterim (text : String)
  | queryFinal (text : String)
deriving DecidableEq, Repr

/-- `True` exactly on `Ev.queryFinal` events. -/
def isQueryFinal : Ev → Bool
  | .queryFinal _ => true
  | _ => false

/-- Number of `FinalResult()` queries recorded in a trace. -/
def countQF (tr : List Ev) : Nat := tr.countP isQueryFinal

/-- The fixed chunk size of the file pipeline's read loop:
`wf.readframes(4000)`. -/
def CHUNK : Nat := 4000

/-- The file pipeline's read loop (`src/stt.py` lines 48–56), translated from
the source: repeatedly read a chunk of up to `CHUNK` frames; a zero-length
read ends the loop; otherwise feed the chunk to the recognizer and, when it
reports an utterance boundary, query `Result()` and append its text to the
segment list when non-empty.  Returns the recognizer state after the loop,
the collected segment texts in order, and the event trace.  The final
zero-length read is recorded as `Ev.readFrames []`.  Termination is by the
file position advancing: the remaining frame list shrinks at each
iteration. -/
def feedAll {σ : Type} (api : RecognizerAPI σ) (s : σ) (frames : List Nat) :
    σ × List String × List Ev :=
  if h : frames = [] then
    (s, [], [Ev.readFrames []])
  else
    let data := frames.take CHUNK
    let a := api.acceptWaveform s data
    if a.2 then
      let r := api.result a.1
      let rest := feedAll api r.1 (frames.drop CHUNK)
      (rest.1,
        (if r.2 = "" then rest.2.1 else r.2 :: rest.2.1),
        Ev.readFrames data :: Ev.accept data true :: Ev.queryResult r.2 :: rest.2.2)
    else
      let rest := feedAll api a.1 (frames.drop CHUNK)
      (rest.1, rest.2.1,
        Ev.readFrames data :: Ev.accept data false :: rest.2.2)
termination_by frames.length
decreasing_by
  all_goals
    simp only [List.length_drop]
    have hpos : 0 < frames.length := List.length_pos.mpr h
    simp [CHUNK]
    omega

/-- Python's `str.strip()`: remove leading and trailing whitespace.  (The
builtin `String.trim` is defined through `Substring` position arithmetic and
does not evaluate inside the kernel, so the embedding uses an equivalent
character-list definition.) -/
def pyStrip (s : String) : String :=
  ⟨((s.data.dropWhile Char.isWhitespace).reverse.dropWhile Char.isWhitespace).reverse⟩

/-- The `ValueError` message of the format check (`src/stt.py` lines 39–43). -/
def formatErrMsg (wav_path : String) : String :=
  "WAV must be PCM 16-bit, mono, 16000 Hz.\nConvert with:\n  ffmpeg -i \"" ++
    wav_path ++ "\" -ac 1 -ar 16000 -sample_fmt s16 output.wav"

/-- `transcribe_wav(model, wav_path)` (`src/stt.py` lines 29–62), translated
from the source over an abstract filesystem `fs` (mapping a path to the WAV
file it resolves to, `none` when `os.path.exists` is false) and an abstract
recognizer `api`.  Returns the transcript (or the raised error) together
with the trace of file/recognizer operations performed. -/
def transcribe_wav {σ : Type} (api : RecognizerAPI σ) (model : Model)
    (fs : String → Option WavFile) (wav_path : String) :
    Except STTErr String × List Ev :=
  match fs wav_path with
  | none => (.error (.fileNotFound ("WAV file not found: " ++ wav_path)), [])
  | some wf =>
    if wf.nchannels ≠ 1 ∨ wf.sampwidth ≠ 2 ∨ wf.framerate ≠ 16000 then
      (.error (.formatMismatch (formatErrMsg wav_path)), [])
    else
      let rec0 := api.setWords (api.newRec model wf.framerate)
      let fin := feedAll api rec0 wf.frames
      let f := api.finalResult fin.1
      let parts := if f.2 = "" then fin.2.1 else fin.2.1 ++ [f.2]
      (.ok (pyStrip (String.intercalate " " parts)),
        fin.2.2 ++ [Ev.queryFinal f.2])

/-- The well-formedness check of the WAV header performed by the source:
mono, 16-bit (2-byte samples), 16000 Hz. -/
def validHeader (wf : WavFile) : Prop :=
  wf.nchannels = 1 ∧ wf.sampwidth = 2 ∧ wf.framerate = 16000

instance : DecidablePred validHeader := fun wf => by
  unfold validHeader; infer_instance

/-- The frame sequence of a file cut into successive chunks of `n` frames
(the last chunk possibly shorter), as produced by repeated `readframes n`
calls.  Spec-side companion of the read loop. -/
def chunksOf {α : Type} (n : Nat) (l : List α) : List (List α) :=
  match l with
  | [] => []
  | x :: xs =>
    if n = 0 then []
    else (x :: xs).take n :: chunksOf n ((x :: xs).drop n)
termination_by l.length
decreasing_by
  simp only [List.length_drop, List.length_cons]
  omega

/-- Spec-side collection of boundary-segment texts: feed each chunk in order
to the recognizer; whenever it reports an utterance boundary, query
`Result()` and keep the text when non-empty. -/
def boundaryTexts {σ : Type} (api : RecognizerAPI σ) :
    σ → List (List Nat) → σ × List String
  | s, [] => (s, [])
  | s, c :: cs =>
    let a := api.acceptWaveform s c
    if a.2 then
      let r := api.result a.1
      let rest := boundaryTexts api r.1 cs
      (rest.1, if r.2 = "" then rest.2 else r.2 :: rest.2)
    else
      boundaryTexts api a.1 cs

/-- Spec-side definition of the recognizer-produced segment texts of a run of
the file pipeline on frame list `frames` from initial recognizer state `s`:
the boundary segment texts in order (empty texts skipped), followed by the
`FinalResult()` text when non-empty. -/
def recSegments {σ : Type} (api : RecognizerAPI σ) (s : σ) (frames : List Nat) :
    List String :=
  let bt := boundaryTexts api s (chunksOf CHUNK frames)
  let f := (api.finalResult bt.1).2
  bt.2 ++ (if f = "" then [] else [f])

/-- One console print of the microphone pipeline, structured by which `print`
statement executed: the initial "Listening..." banner, a completed utterance
line, an in-place partial-hypothesis update (`\r`-prefixed, no newline), the
"Stopped." message, and the `"Final:"`-prefixed line. -/
inductive MicLine where
  | listening
  | textLine (s : String)
  | interimLine (s : String)
  | stopped
  | finalLine (s : String)
deriving DecidableEq, Repr

/-- `True` exactly on `"Final:"`-prefixed output lines. -/
def isFinalLine : MicLine → Bool
  | .finalLine _ => true
  | _ => false

/-- How the microphone consumer loop (`while True`) was exited: by a
`KeyboardInterrupt` (caught by the handler at `src/stt.py` line 100) or by
some other exception (which propagates out of `transcribe_mic`). -/
inductive ExitCause where
  | interrupt
  | exception (e : String)
deriving DecidableEq, Repr

/-- The consumer loop body of `transcribe_mic` (`src/stt.py` lines 88–98),
applied to the successive buffers obtained from `q.get()` (in FIFO order, so
in delivery order): feed each buffer to the recognizer; on an utterance
boundary print the trimmed `Result()` text when non-empty as a completed
line, otherwise print the trimmed `PartialResult()` hypothesis in place when
non-empty.  Returns the final recognizer state, the printed lines and the
event trace. -/
def micConsume {σ : Type} (api : RecognizerAPI σ) :
    σ → List (List Nat) → σ × List MicLine × List Ev
  | s, [] => (s, [], [])
  | s, d :: ds =>
    let a := api.acceptWaveform s d
    if a.2 then
      let r := api.result a.1
      let t := pyStrip r.2
      let rest := micConsume api r.1 ds
      (rest.1,
        (if t = "" then rest.2.1 else MicLine.textLine t :: rest.2.1),
        Ev.accept d true :: Ev.queryResult r.2 :: rest.2.2)
    else
      let p := api.interimResult a.1
      let pt := pyStrip p.2
      let rest := micConsume api p.1 ds
      (rest.1,
        (if pt = "" then rest.2.1 else MicLine.interimLine pt :: rest.2.1),
        Ev.accept d false :: Ev.queryInterim p.2 :: rest.2.2)

/-- `transcribe_mic(model, device)` (`src/stt.py` lines 65–104), translated
from the source.  The audio-capture side is abstracted by the list `blocks`
of buffers the consumer loop dequeues before the loop is exited (FIFO queue,
hence delivery order), and `cause` says how the `while True` loop ends: a
`KeyboardInterrupt` runs the handler — print "Stopped.", query
`FinalResult()` once, print its trimmed text prefixed `"Final:"` when
non-empty — while any other exception propagates out with no handler run.
The recognizer is constructed at the fixed sample rate 16000 with
`SetWords(True)`; `device` is only passed to the stream constructor. -/
def transcribe_mic {σ : Type} (api : RecognizerAPI σ) (model : Model)
    (device : Option Int) (blocks : List (List Nat)) (cause : ExitCause) :
    Except String Unit × List MicLine × List Ev :=
  let rec0 := api.setWords (api.newRec model 16000)
  let c := micConsume api rec0 blocks
  match cause with
  | .interrupt =>
    let f := api.finalResult c.1
    let ft := pyStrip f.2
    (.ok (),
      MicLine.listening ::
        c.2.1 ++ MicLine.stopped :: (if ft = "" then [] else [MicLine.finalLine ft]),
      c.2.2 ++ [Ev.queryFinal f.2])
  | .exception e =>
    (.error e, MicLine.listening :: c.2.1, c.2.2)

/-- The capture callback of `transcribe_mic` (`src/stt.py` lines 68–71),
translated from the source: given the current queue contents, the delivered
block `indata` (with its frame count `fa` and timestamp `ti`, both unused)
and the stream status flag (`none` when falsy), report a set status to
diagnostic output and, regardless, append a copy of the block's bytes to the
queue.  Returns the new queue contents and the stderr lines produced. -/
def callback (q : List (List Nat)) (indata : List Nat) (fa ti : Nat)
    (status : Option String) : List (List Nat) × List String :=
  (q ++ [indata], match status with | some st => [st] | none => [])

/-- Joint state of the microphone session's two threads of control: the
blocks (with status flags) the audio subsystem has yet to deliver, the FIFO
queue contents, and the buffers the consumer loop has dequeued so far, in
order. -/
structure MicSt where
  pending : List (List Nat × Option String)
  buf : List (List Nat)
  consumed : List (List Nat)
deriving DecidableEq, Repr

/-- Interleaving semantics of the microphone session: at any point either the
audio subsystem delivers the next block by invoking `callback` (which
enqueues it), or the consumer loop dequeues the front of the FIFO queue
(`q.get()`) and feeds it to the recognizer. -/
inductive MicQStep : MicSt → MicSt → Prop
  | deliver (b : List Nat) (st : Option String) (fa ti : Nat)
      (rest : List (List Nat × Option String)) (q c : List (List Nat)) :
      MicQStep ⟨(b, st) :: rest, q, c⟩ ⟨rest, (callback q b fa ti st).1, c⟩
  | consume (p : List (List Nat × Option String)) (b : List Nat)
      (q c : List (List Nat)) :
      MicQStep ⟨p, b :: q, c⟩ ⟨p, q, c ++ [b]⟩

/-- The model directory path constant `ENGLISH_MODEL_PATH`
(`src/stt.py` line 12). -/
def ENGLISH_MODEL_PATH : String := "models/vosk-model-small-en-us-0.15"

/-- The `FileNotFoundError` message of `load_english_model`
(`src/stt.py` lines 17–25). -/
def modelNotFoundMsg : String :=
  "English model not found at: " ++ ENGLISH_MODEL_PATH ++
    "\n\nDownload this English model:\n  " ++
    "https://alphacephei.com/vosk/models" ++
    "\nModel name:\n  vosk-model-small-en-us-0.15\n\n" ++
    "Unzip it so the folder path is exactly:\n  " ++ ENGLISH_MODEL_PATH

/-- `load_english_model()` (`src/stt.py` lines 15–26), translated from the
source over an abstract directory-existence predicate `isdir`
(`os.path.isdir`): raise `FileNotFoundError` with remediation instructions
when the model directory is absent, else return the model handle. -/
def load_english_model (isdir : String → Bool) : Except String Model :=
  if !(isdir ENGLISH_MODEL_PATH) then
    .error modelNotFoundMsg
  else
    .ok ⟨ENGLISH_MODEL_PATH⟩

/-- The parsed CLI mode: exactly one of `--mic` (with the optional
`--device`) or `--file <path>`, as enforced by the mutually exclusive
required argument group in `main`. -/
inductive Mode where
  | mic (device : Option Int)
  | file (path : String)
deriving DecidableEq, Repr

/-- The message carried by a `transcribe_wav` error. -/
def sttErrMsg : STTErr → String
  | .fileNotFound m => m
  | .formatMismatch m => m

/-- `main()` (`src/stt.py` lines 107–122) after argument parsing: load the
model first, then dispatch to the selected pipeline.  Returns the process's
outcome (`.error` for an uncaught exception) and the audio-I/O event trace
of whichever pipeline ran (empty when none did).  The mic session's inputs
`blocks`/`cause` parametrize the abstracted capture subsystem. -/
def mainRun {σ : Type} (isdir : String → Bool) (fs : String → Option WavFile)
    (api : RecognizerAPI σ) (mode : Mode) (blocks : List (List Nat))
    (cause : ExitCause) : Except String Unit × List Ev :=
  match load_english_model isdir with
  | .error e => (.error e, [])
  | .ok m =>
    match mode with
    | .mic device =>
      let r := transcribe_mic api m device blocks cause
      (r.1, r.2.2)
    | .file p =>
      let r := transcribe_wav api m fs p
      (match r.1 with
        | .error err => .error (sttErrMsg err)
        | .ok _ => .ok (), r.2)

/-- A small concrete recognizer over state `List (List Nat)` (the chunks fed
so far), used to instantiate the abstract pipelines on concrete inputs: it
reports an utterance boundary exactly on even-length chunks, produces a
nonempty segment text exactly when an even number of chunks has been fed,
and has fixed interim/final texts. -/
def demoAPI : RecognizerAPI (List (List Nat)) where
  newRec := fun _ _ => []
  setWords := id
  acceptWaveform := fun s d => (s ++ [d], d.length % 2 = 0)
  result := fun s => (s, if s.length % 2 = 0 then "seg" ++ toString s.length else "")
  interimResult := fun s => (s, " part ")
  finalResult := fun s => (s, " fin ")

/-- A recognizer that never produces any text: models a silence-only run. -/
def silentAPI : RecognizerAPI (List (List Nat)) where
  newRec := fun _ _ => []
  setWords := id
  acceptWaveform := fun s d => (s ++ [d], d.length % 2 = 0)
  result := fun s => (s, "")
  interimResult := fun s => (s, "")
  finalResult := fun s => (s, "")

/-- A concrete valid WAV file: mono, 16-bit, 16000 Hz, four frames. -/
def demoWav : WavFile := ⟨1, 2, 16000, [5, 6, 7, 8]⟩

/-- A concrete WAV file with a stereo header. -/
def badWav : WavFile := ⟨2, 2, 16000, [5, 6]⟩

/-- A concrete empty (zero-frame) valid WAV file. -/
def emptyWav : WavFile := ⟨1, 2, 16000, []⟩

/-- A concrete filesystem: `"good.wav"` is the valid file, `"bad.wav"` the
stereo one, `"empty.wav"` the zero-frame one; nothing else exists. -/
def demoFS : String → Option WavFile := fun p =>
  if p = "good.wav" then some demoWav
  else if p = "bad.wav" then some badWav
  else if p = "empty.wav" then some emptyWav
  else none


theorem feedAll_eq_boundaryTexts {σ : Type} (api : RecognizerAPI σ) (s : σ)
    (frames : List Nat) :
    (feedAll api s frames).1 = (boundaryTexts api s (chunksOf CHUNK frames)).1 ∧
    (feedAll api s frames).2.1 = (boundaryTexts api s (chunksOf CHUNK frames)).2 := by
  cases frames with
  | nil => simp [feedAll, chunksOf, boundaryTexts]
  | cons x xs =>
    rw [feedAll]
    rw [dif_neg (by simp : ¬(x :: xs = []))]
    have hc : chunksOf CHUNK (x :: xs) =
        (x :: xs).take CHUNK :: chunksOf CHUNK ((x :: xs).drop CHUNK) := by
      rw [chunksOf]
      simp [CHUNK]
    rw [hc]
    simp only [boundaryTexts]
    by_cases hb : (api.acceptWaveform s ((x :: xs).take CHUNK)).2
    · simp only [hb, if_true]
      have ih1 := feedAll_eq_boundaryTexts api
        (api.result (api.acceptWaveform s ((x :: xs).take CHUNK)).1).1
        ((x :: xs).drop CHUNK)
      exact ⟨ih1.1, by rw [ih1.2]⟩
    · simp only [hb, Bool.false_eq_true, if_false]
      exact feedAll_eq_boundaryTexts api
        (api.acceptWaveform s ((x :: xs).take CHUNK)).1 ((x :: xs).drop CHUNK)
termination_by frames.length
decreasing_by
  all_goals
    simp only [List.length_drop, List.length_cons, CHUNK]
    omega

theorem feedAll_trace_noQF {σ : Type} (api : RecognizerAPI σ) (s : σ)
    (frames : List Nat) : countQF (feedAll api s frames).2.2 = 0 := by
  cases frames with
  | nil => simp [feedAll, countQF, isQueryFinal]
  | cons x xs =>
    rw [feedAll]
    rw [dif_neg (by simp : ¬(x :: xs = []))]
    by_cases hb : (api.acceptWaveform s ((x :: xs).take CHUNK)).2
    · simp only [hb, if_true]
      have ih := feedAll_trace_noQF api
        (api.result (api.acceptWaveform s ((x :: xs).take CHUNK)).1).1
        ((x :: xs).drop CHUNK)
      simp [countQF, isQueryFinal, List.countP_cons] at ih ⊢
      exact ih
    · simp only [hb, Bool.false_eq_true, if_false]
      have ih := feedAll_trace_noQF api
        (api.acceptWaveform s ((x :: xs).take CHUNK)).1 ((x :: xs).drop CHUNK)
      simp [countQF, isQueryFinal, List.countP_cons] at ih ⊢
      exact ih
termination_by frames.length
decreasing_by
  all_goals
    simp only [List.length_drop, List.length_cons, CHUNK]
    omega

theorem feedAll_trace_ends {σ : Type} (api : RecognizerAPI σ) (s : σ)
    (frames : List Nat) :
    ∃ pre, (feedAll api s frames).2.2 = pre ++ [Ev.readFrames []] := by
  cases frames with
  | nil => exact ⟨[], by simp [feedAll]⟩
  | cons x xs =>
    rw [feedAll]
    rw [dif_neg (by simp : ¬(x :: xs = []))]
    by_cases hb : (api.acceptWaveform s ((x :: xs).take CHUNK)).2
    · simp only [hb, if_true]
      obtain ⟨pre, hpre⟩ := feedAll_trace_ends api
        (api.result (api.acceptWaveform s ((x :: xs).take CHUNK)).1).1
        ((x :: xs).drop CHUNK)
      exact ⟨Ev.readFrames ((x :: xs).take CHUNK) ::
        Ev.accept ((x :: xs).take CHUNK) true ::
        Ev.queryResult (api.result (api.acceptWaveform s ((x :: xs).take CHUNK)).1).2 ::
        pre, by simp [hpre]⟩
    · simp only [hb, Bool.false_eq_true, if_false]
      obtain ⟨pre, hpre⟩ := feedAll_trace_ends api
        (api.acceptWaveform s ((x :: xs).take CHUNK)).1 ((x :: xs).drop CHUNK)
      exact ⟨Ev.readFrames ((x :: xs).take CHUNK) ::
        Ev.accept ((x :: xs).take CHUNK) false :: pre, by simp [hpre]⟩
termination_by frames.length
decreasing_by
  all_goals
    simp only [List.length_drop, List.length_cons, CHUNK]
    omega

theorem feedAll_parts_mem {σ : Type} (api : RecognizerAPI σ) (s : σ)
    (frames : List Nat) :
    ∀ t ∈ (feedAll api s frames).2.1,
      t ≠ "" ∧ Ev.queryResult t ∈ (feedAll api s frames).2.2 := by
  cases frames with
  | nil => simp [feedAll]
  | cons x xs =>
    rw [feedAll]
    rw [dif_neg (by simp : ¬(x :: xs = []))]
    by_cases hb : (api.acceptWaveform s ((x :: xs).take CHUNK)).2
    · simp only [hb, if_true]
      have ih := feedAll_parts_mem api
        (api.result (api.acceptWaveform s ((x :: xs).take CHUNK)).1).1
        ((x :: xs).drop CHUNK)
      intro t ht
      by_cases hr : (api.result (api.acceptWaveform s ((x :: xs).take CHUNK)).1).2 = ""
      · simp only [hr, if_true] at ht
        obtain ⟨h1, h2⟩ := ih t ht
        exact ⟨h1, by simp [h2]⟩
      · simp only [hr, if_false] at ht
        rcases List.mem_cons.mp ht with h | h
        · subst h
          exact ⟨hr, by simp⟩
        · obtain ⟨h1, h2⟩ := ih t h
          exact ⟨h1, by simp [h2]⟩
    · simp only [hb, Bool.false_eq_true, if_false]
      have ih := feedAll_parts_mem api
        (api.acceptWaveform s ((x :: xs).take CHUNK)).1 ((x :: xs).drop CHUNK)
      intro t ht
      obtain ⟨h1, h2⟩ := ih t ht
      exact ⟨h1, by simp [h2]⟩
termination_by frames.length
decreasing_by
  all_goals
    simp only [List.length_drop, List.length_cons, CHUNK]
    omega

theorem micConsume_no_finalLine {σ : Type} (api : RecognizerAPI σ) (s : σ)
    (ds : List (List Nat)) :
    (micConsume api s ds).2.1.countP isFinalLine = 0 := by
  induction ds generalizing s with
  | nil => simp [micConsume]
  | cons d ds ih =>
    simp only [micConsume]
    by_cases hb : (api.acceptWaveform s d).2
    · simp only [hb, if_true]
      by_cases hr : pyStrip (api.result (api.acceptWaveform s d).1).2 = ""
      · simp only [hr, if_true]
        exact ih _
      · simp only [hr, if_false]
        simp [List.countP_cons, isFinalLine, ih _]
    · simp only [hb, Bool.false_eq_true, if_false]
      by_cases hr : pyStrip (api.interimResult (api.acceptWaveform s d).1).2 = ""
      · simp only [hr, if_true]
        exact ih _
      · simp only [hr, if_false]
        simp [List.countP_cons, isFinalLine, ih _]

theorem micConsume_no_stopped {σ : Type} (api : RecognizerAPI σ) (s : σ)
    (ds : List (List Nat)) :
    MicLine.stopped ∉ (micConsume api s ds).2.1 := by
  induction ds generalizing s with
  | nil => simp [micConsume]
  | cons d ds ih =>
    simp only [micConsume]
    by_cases hb : (api.acceptWaveform s d).2
    · simp only [hb, if_true]
      by_cases hr : pyStrip (api.result (api.acceptWaveform s d).1).2 = ""
      · simp only [hr, if_true]
        exact ih _
      · simp only [hr, if_false]
        simp only [List.mem_cons]
        rintro (h | h)
        · exact MicLine.noConfusion h
        · exact ih _ h
    · simp only [hb, Bool.false_eq_true, if_false]
      by_cases hr : pyStrip (api.interimResult (api.acceptWaveform s d).1).2 = ""
      · simp only [hr, if_true]
        exact ih _
      · simp only [hr, if_false]
        simp only [List.mem_cons]
        rintro (h | h)
        · exact MicLine.noConfusion h
        · exact ih _ h

theorem micConsume_trace_noQF {σ : Type} (api : RecognizerAPI σ) (s : σ)
    (ds : List (List Nat)) :
    countQF (micConsume api s ds).2.2 = 0 := by
  induction ds generalizing s with
  | nil => simp [micConsume, countQF]
  | cons d ds ih =>
    simp only [micConsume]
    by_cases hb : (api.acceptWaveform s d).2
    · simp only [hb, if_true]
      have := ih (api.result (api.acceptWaveform s d).1).1
      simpa [countQF, List.countP_cons, isQueryFinal] using this
    · simp only [hb, Bool.false_eq_true, if_false]
      have := ih (api.interimResult (api.acceptWaveform s d).1).1
      simpa [countQF, List.countP_cons, isQueryFinal] using this

/-- A second concrete filesystem agreeing with `demoFS` on `"good.wav"`. -/
def demoFS2 : String → Option WavFile := fun p =>
  if p = "good.wav" then some demoWav else none

/-- C9: if the WAV path given to `transcribe_wav` does not resolve on the
filesystem, the call fails immediately with a file-not-found error naming the
path, before opening the file and before any audio is processed (the trace of
file/recognizer operations is empty). -/
theorem transcribe_wav_missing_file {σ : Type} (api : RecognizerAPI σ)
    (model : Model) (fs : String → Option WavFile) (wav_path : String)
    (h : fs wav_path = none) :
    transcribe_wav api model fs wav_path =
      (.error (.fileNotFound ("WAV file not found: " ++ wav_path)), []) := by
  simp [transcribe_wav, h]

/-- Witness for C9 at the concrete filesystem `demoFS` and path
`"missing.wav"`. -/
theorem transcribe_wav_missing_file_witness :
    transcribe_wav demoAPI ⟨ENGLISH_MODEL_PATH⟩ demoFS "missing.wav" =
      (.error (.fileNotFound ("WAV file not found: " ++ "missing.wav")), []) :=
  transcribe_wav_missing_file demoAPI ⟨ENGLISH_MODEL_PATH⟩ demoFS "missing.wav"
    (by decide)

/-- C2: for any WAV file whose header deviates from mono/16-bit/16000 Hz,
`transcribe_wav` fails with the format-mismatch error (whose message contains
the corrective `ffmpeg` command) and performs no file/recognizer operation at
all: no audio frame is read, nothing is fed to the recognizer, and no partial
transcription is produced. -/
theorem transcribe_wav_format_mismatch {σ : Type} (api : RecognizerAPI σ)
    (model : Model) (fs : String → Option WavFile) (wav_path : String)
    (wf : WavFile) (hfs : fs wav_path = some wf)
    (hbad : wf.nchannels ≠ 1 ∨ wf.sampwidth ≠ 2 ∨ wf.framerate ≠ 16000) :
    transcribe_wav api model fs wav_path =
      (.error (.formatMismatch (formatErrMsg wav_path)), []) := by
  simp only [transcribe_wav, hfs]
  rw [if_pos hbad]

/-- Witness for C2 at the concrete stereo file `badWav` on path
`"bad.wav"`. -/
theorem transcribe_wav_format_mismatch_witness :
    transcribe_wav demoAPI ⟨ENGLISH_MODEL_PATH⟩ demoFS "bad.wav" =
      (.error (.formatMismatch (formatErrMsg "bad.wav")), []) :=
  transcribe_wav_format_mismatch demoAPI ⟨ENGLISH_MODEL_PATH⟩ demoFS "bad.wav"
    badWav (by decide) (Or.inl (by decide))

/-- C5: `transcribe_wav` is deterministic — it is a function of the model
handle, the recognizer behavior, the path, and the WAV file the path
resolves to, so two runs on the same model handle in which the path resolves
to an identical file produce identical results (the recognizer, embedded as
a record of functions, is deterministic by construction). -/
theorem transcribe_wav_deterministic {σ : Type} (api : RecognizerAPI σ)
    (model : Model) (fs1 fs2 : String → Option WavFile) (wav_path : String)
    (h : fs1 wav_path = fs2 wav_path) :
    transcribe_wav api model fs1 wav_path = transcribe_wav api model fs2 wav_path := by
  simp only [transcribe_wav, h]

/-- Witness for C5: the two concrete filesystems `demoFS` and `demoFS2`
resolve `"good.wav"` to the identical file, and the two runs coincide. -/
theorem transcribe_wav_deterministic_witness :
    transcribe_wav demoAPI ⟨ENGLISH_MODEL_PATH⟩ demoFS "good.wav" =
      transcribe_wav demoAPI ⟨ENGLISH_MODEL_PATH⟩ demoFS2 "good.wav" :=
  transcribe_wav_deterministic demoAPI ⟨ENGLISH_MODEL_PATH⟩ demoFS demoFS2
    "good.wav" (by decide)

/-- C1: for every WAV input that passes the format check (mono, 16-bit,
16000 Hz), `transcribe_wav` terminates (it is a total function) and returns
exactly the recognizer-produced segment texts — the boundary-segment texts in
order, empty texts skipped, followed by the final-result text when non-empty,
as collected by `recSegments` — joined by single spaces with leading and
trailing whitespace stripped. -/
theorem transcribe_wav_valid_output {σ : Type} (api : RecognizerAPI σ)
    (model : Model) (fs : String → Option WavFile) (wav_path : String)
    (wf : WavFile) (hfs : fs wav_path = some wf) (h1 : wf.nchannels = 1)
    (h2 : wf.sampwidth = 2) (h3 : wf.framerate = 16000) :
    (transcribe_wav api model fs wav_path).1 =
      .ok (pyStrip (String.intercalate " "
        (recSegments api (api.setWords (api.newRec model wf.framerate)) wf.frames))) := by
  simp only [transcribe_wav, hfs]
  rw [if_neg (by simp [h1, h2, h3])]
  have he := feedAll_eq_boundaryTexts api (api.setWords (api.newRec model wf.framerate)) wf.frames
  simp only [recSegments, he.1, he.2]
  by_cases hf : (api.finalResult
      (boundaryTexts api (api.setWords (api.newRec model wf.framerate))
        (chunksOf CHUNK wf.frames)).1).2 = "" <;>
    simp [hf]

/-- Witness for C1 at the concrete valid file `demoWav` on path
`"good.wav"`. -/
theorem transcribe_wav_valid_output_witness :
    (transcribe_wav demoAPI ⟨ENGLISH_MODEL_PATH⟩ demoFS "good.wav").1 =
      .ok (pyStrip (String.intercalate " "
        (recSegments demoAPI
          (demoAPI.setWords (demoAPI.newRec ⟨ENGLISH_MODEL_PATH⟩ demoWav.framerate))
          demoWav.frames))) :=
  transcribe_wav_valid_output demoAPI ⟨ENGLISH_MODEL_PATH⟩ demoFS "good.wav"
    demoWav (by decide) (by decide) (by decide) (by decide)

/-- C4: for a valid WAV input with zero audio frames, `transcribe_wav` still
queries the recognizer's final result exactly once (the trace is a single
zero-length read followed by the single `FinalResult()` query) and appends
its text when non-empty; and whenever the recognizer produces no non-empty
text for any chunk or for the final query, the returned transcript is the
empty string. -/
theorem transcribe_wav_empty_and_silent {σ : Type} (api : RecognizerAPI σ)
    (model : Model) (fs : String → Option WavFile) (wav_path : String)
    (wf : WavFile) (hfs : fs wav_path = some wf) (h1 : wf.nchannels = 1)
    (h2 : wf.sampwidth = 2) (h3 : wf.framerate = 16000) :
    (wf.frames = [] →
      (transcribe_wav api model fs wav_path).2 =
        [Ev.readFrames [],
         Ev.queryFinal (api.finalResult (api.setWords (api.newRec model wf.framerate))).2] ∧
      (transcribe_wav api model fs wav_path).1 =
        .ok (pyStrip (String.intercalate " "
          (if (api.finalResult (api.setWords (api.newRec model wf.framerate))).2 = "" then []
           else [(api.finalResult (api.setWords (api.newRec model wf.framerate))).2])))) ∧
    ((∀ t, Ev.queryResult t ∈ (transcribe_wav api model fs wav_path).2 → t = "") →
     (∀ t, Ev.queryFinal t ∈ (transcribe_wav api model fs wav_path).2 → t = "") →
     (transcribe_wav api model fs wav_path).1 = .ok "") := by
  have hvalid : ¬(wf.nchannels ≠ 1 ∨ wf.sampwidth ≠ 2 ∨ wf.framerate ≠ 16000) := by
    simp [h1, h2, h3]
  constructor
  · intro hnil
    simp only [transcribe_wav, hfs]
    rw [if_neg hvalid]
    rw [hnil]
    constructor
    · simp [feedAll]
    · by_cases hf : (api.finalResult (api.setWords (api.newRec model wf.framerate))).2 = "" <;>
        simp [feedAll, hf]
  · intro hres hfin
    simp only [transcribe_wav, hfs] at hres hfin ⊢
    rw [if_neg hvalid] at hres hfin ⊢
    have hf : (api.finalResult
        (feedAll api (api.setWords (api.newRec model wf.framerate)) wf.frames).1).2 = "" := by
      apply hfin
      simp
    have hparts : (feedAll api (api.setWords (api.newRec model wf.framerate)) wf.frames).2.1 = [] := by
      rw [List.eq_nil_iff_forall_not_mem]
      intro t ht
      have hm := feedAll_parts_mem api (api.setWords (api.newRec model wf.framerate))
        wf.frames t ht
      exact hm.1 (hres t (by simp [hm.2]))
    simp only [hf, if_true, hparts]
    have : pyStrip (String.intercalate " " ([] : List String)) = "" := by decide
    simp [this]

/-- Witness for C4 at the concrete zero-frame file `emptyWav` (with the
never-speaking recognizer `silentAPI` for the silence part). -/
theorem transcribe_wav_empty_and_silent_witness :
    ((transcribe_wav silentAPI ⟨ENGLISH_MODEL_PATH⟩ demoFS "empty.wav").2 =
      [Ev.readFrames [],
       Ev.queryFinal (silentAPI.finalResult
         (silentAPI.setWords (silentAPI.newRec ⟨ENGLISH_MODEL_PATH⟩ emptyWav.framerate))).2] ∧
     (transcribe_wav silentAPI ⟨ENGLISH_MODEL_PATH⟩ demoFS "empty.wav").1 =
      .ok (pyStrip (String.intercalate " "
        (if (silentAPI.finalResult
              (silentAPI.setWords (silentAPI.newRec ⟨ENGLISH_MODEL_PATH⟩ emptyWav.framerate))).2 = ""
         then [] else
          [(silentAPI.finalResult
              (silentAPI.setWords (silentAPI.newRec ⟨ENGLISH_MODEL_PATH⟩ emptyWav.framerate))).2])))) ∧
    (transcribe_wav silentAPI ⟨ENGLISH_MODEL_PATH⟩ demoFS "empty.wav").1 = .ok "" := by
  have h := transcribe_wav_empty_and_silent silentAPI ⟨ENGLISH_MODEL_PATH⟩ demoFS
    "empty.wav" emptyWav (by decide) (by decide) (by decide) (by decide)
  refine ⟨h.1 (by decide), h.2 ?_ ?_⟩
  · intro t ht
    revert ht
    simp [transcribe_wav, demoFS, emptyWav, feedAll, silentAPI]
  · intro t ht
    revert ht
    simp [transcribe_wav, demoFS, emptyWav, feedAll, silentAPI]

/-- C6: in the microphone pipeline, upon interruption the number of printed
`"Final:"`-prefixed lines is one exactly when the stripped text of the
recognizer's final result is non-empty, and zero otherwise. -/
theorem mic_final_line_iff {σ : Type} (api : RecognizerAPI σ) (model : Model)
    (device : Option Int) (blocks : List (List Nat)) :
    (transcribe_mic api model device blocks .interrupt).2.1.countP isFinalLine =
      (if pyStrip (api.finalResult
          (micConsume api (api.setWords (api.newRec model 16000)) blocks).1).2 = ""
       then 0 else 1) := by
  simp only [transcribe_mic]
  by_cases hf : pyStrip (api.finalResult
      (micConsume api (api.setWords (api.newRec model 16000)) blocks).1).2 = "" <;>
    simp [hf, List.countP_cons, List.countP_append, isFinalLine,
      micConsume_no_finalLine]

/-- C10: the final-result flush and the "Stopped." message of the microphone
pipeline run only when the consumer loop is exited by a keyboard interrupt:
for any other exception the exception propagates, no `"Final:"` line is
printed, no "Stopped." line is printed and `FinalResult()` is never queried —
whereas on the interrupt path "Stopped." is printed and `FinalResult()` is
queried exactly once. -/
theorem mic_exception_no_final {σ : Type} (api : RecognizerAPI σ)
    (model : Model) (device : Option Int) (blocks : List (List Nat)) (e : String) :
    (transcribe_mic api model device blocks (.exception e)).1 = .error e ∧
    (transcribe_mic api model device blocks (.exception e)).2.1.countP isFinalLine = 0 ∧
    MicLine.stopped ∉ (transcribe_mic api model device blocks (.exception e)).2.1 ∧
    countQF (transcribe_mic api model device blocks (.exception e)).2.2 = 0 ∧
    MicLine.stopped ∈ (transcribe_mic api model device blocks .interrupt).2.1 ∧
    countQF (transcribe_mic api model device blocks .interrupt).2.2 = 1 := by
  refine ⟨rfl, ?_, ?_, ?_, ?_, ?_⟩
  · simp [transcribe_mic, List.countP_cons, isFinalLine, micConsume_no_finalLine]
  · simp only [transcribe_mic, List.mem_cons]
    rintro (h | h)
    · exact MicLine.noConfusion h
    · exact micConsume_no_stopped api _ blocks h
  · simp [transcribe_mic, countQF] at *
    have := micConsume_trace_noQF api (api.setWords (api.newRec model 16000)) blocks
    simpa [countQF] using this
  · simp [transcribe_mic]
  · simp only [transcribe_mic]
    have := micConsume_trace_noQF api (api.setWords (api.newRec model 16000)) blocks
    simp [countQF, List.countP_append, List.countP_cons, isQueryFinal] at this ⊢
    exact this

/-- C3: in every execution of either pipeline the recognizer's `FinalResult()`
is queried at most once, and never before the input is exhausted or the
process interrupted: the file pipeline's trace contains at most one
`queryFinal`, and on a valid input the trace is exactly a `queryFinal`-free
prefix followed by the loop-ending zero-length read and the single
`queryFinal`; the mic pipeline's trace on interruption is a `queryFinal`-free
prefix followed by the single `queryFinal`, and on any other exit contains no
`queryFinal` at all. -/
theorem finalResult_once {σ : Type} (api : RecognizerAPI σ) (model : Model)
    (fs : String → Option WavFile) (wav_path : String) (device : Option Int)
    (blocks : List (List Nat)) (e : String) :
    countQF (transcribe_wav api model fs wav_path).2 ≤ 1 ∧
    (∀ wf, fs wav_path = some wf → wf.nchannels = 1 → wf.sampwidth = 2 →
      wf.framerate = 16000 →
      ∃ pre t, (transcribe_wav api model fs wav_path).2 =
          pre ++ [Ev.readFrames [], Ev.queryFinal t] ∧ countQF pre = 0) ∧
    (∃ pre t, (transcribe_mic api model device blocks .interrupt).2.2 =
        pre ++ [Ev.queryFinal t] ∧ countQF pre = 0) ∧
    countQF (transcribe_mic api model device blocks (.exception e)).2.2 = 0 := by
  have hwav : ∀ wf, fs wav_path = some wf → wf.nchannels = 1 → wf.sampwidth = 2 →
      wf.framerate = 16000 →
      ∃ pre t, (transcribe_wav api model fs wav_path).2 =
          pre ++ [Ev.readFrames [], Ev.queryFinal t] ∧ countQF pre = 0 := by
    intro wf hfs h1 h2 h3
    simp only [transcribe_wav, hfs]
    rw [if_neg (by simp [h1, h2, h3])]
    obtain ⟨pre, hpre⟩ := feedAll_trace_ends api
      (api.setWords (api.newRec model wf.framerate)) wf.frames
    have hno := feedAll_trace_noQF api
      (api.setWords (api.newRec model wf.framerate)) wf.frames
    rw [hpre] at hno
    refine ⟨pre, (api.finalResult
      (feedAll api (api.setWords (api.newRec model wf.framerate)) wf.frames).1).2, ?_, ?_⟩
    · simp [hpre]
    · unfold countQF at hno ⊢
      rw [List.countP_append] at hno
      omega
  refine ⟨?_, hwav, ?_, ?_⟩
  · match hfs : fs wav_path with
    | none =>
      simp [transcribe_wav, hfs, countQF]
    | some wf =>
      by_cases hbad : wf.nchannels ≠ 1 ∨ wf.sampwidth ≠ 2 ∨ wf.framerate ≠ 16000
      · simp only [transcribe_wav, hfs]
        rw [if_pos hbad]
        simp [countQF]
      · push_neg at hbad
        obtain ⟨pre, t, htr, hpre⟩ := hwav wf hfs hbad.1 hbad.2.1 hbad.2.2
        rw [htr]
        unfold countQF at hpre ⊢
        rw [List.countP_append, hpre, List.countP_cons, List.countP_cons, List.countP_nil]
        simp [isQueryFinal]
  · simp only [transcribe_mic]
    refine ⟨(micConsume api (api.setWords (api.newRec model 16000)) blocks).2.2, _, rfl, ?_⟩
    exact micConsume_trace_noQF api (api.setWords (api.newRec model 16000)) blocks
  · simp only [transcribe_mic]
    exact micConsume_trace_noQF api (api.setWords (api.newRec model 16000)) blocks

/-- Witness for C3 at the concrete valid file `demoWav`, a two-block mic
session, and an arbitrary exception. -/
theorem finalResult_once_witness :
    countQF (transcribe_wav demoAPI ⟨ENGLISH_MODEL_PATH⟩ demoFS "good.wav").2 ≤ 1 ∧
    (∃ pre t, (transcribe_wav demoAPI ⟨ENGLISH_MODEL_PATH⟩ demoFS "good.wav").2 =
        pre ++ [Ev.readFrames [], Ev.queryFinal t] ∧ countQF pre = 0) ∧
    (∃ pre t, (transcribe_mic demoAPI ⟨ENGLISH_MODEL_PATH⟩ none [[1], [2, 3]] .interrupt).2.2 =
        pre ++ [Ev.queryFinal t] ∧ countQF pre = 0) ∧
    countQF (transcribe_mic demoAPI ⟨ENGLISH_MODEL_PATH⟩ none [[1], [2, 3]]
      (.exception "RuntimeError")).2.2 = 0 := by
  have h := finalResult_once demoAPI ⟨ENGLISH_MODEL_PATH⟩ demoFS "good.wav"
    none [[1], [2, 3]] "RuntimeError"
  exact ⟨h.1, h.2.1 demoWav (by decide) (by decide) (by decide) (by decide),
    h.2.2.1, h.2.2.2⟩

/-- From any joint state, the session can run to completion: deliver every
pending block and drain the queue, consuming everything in order. -/
theorem micReach (p : List (List Nat × Option String)) (q c : List (List Nat)) :
    Relation.ReflTransGen MicQStep ⟨p, q, c⟩ ⟨[], [], c ++ q ++ p.map Prod.fst⟩ := by
  induction p generalizing q c with
  | nil =>
    induction q generalizing c with
    | nil => simpa using Relation.ReflTransGen.refl
    | cons b q ih =>
      refine Relation.ReflTransGen.head (MicQStep.consume [] b q c) ?_
      simpa [List.append_assoc] using ih (c ++ [b])
  | cons hd rest ih =>
    refine Relation.ReflTransGen.head (MicQStep.deliver hd.1 hd.2 0 0 rest q c) ?_
    have h2 := ih (q ++ [hd.1]) c
    simpa [callback, List.append_assoc] using h2

/-- C7: the capture callback enqueues every delivered block regardless of the
status flag (a set status only adds a diagnostic line); and in the joint
producer/consumer transition system every enqueued buffer is consumed exactly
once, in delivery order: along any run the consumed buffers followed by the
queue contents and the undelivered blocks are exactly the delivered sequence,
and every session can be completed so that the consumed sequence is the full
delivery sequence. -/
theorem callback_queue_fifo (blocks : List (List Nat × Option String)) :
    (∀ q b fa ti st, (callback q b fa ti st).1 = q ++ [b]) ∧
    (∀ q b fa ti s, (callback q b fa ti (some s)).2 = [s] ∧
      (callback q b fa ti none).2 = []) ∧
    (∀ s, Relation.ReflTransGen MicQStep ⟨blocks, [], []⟩ s →
      s.consumed ++ s.buf ++ s.pending.map Prod.fst = blocks.map Prod.fst) ∧
    Relation.ReflTransGen MicQStep ⟨blocks, [], []⟩ ⟨[], [], blocks.map Prod.fst⟩ := by
  refine ⟨fun _ _ _ _ _ => rfl, fun _ _ _ _ _ => ⟨rfl, rfl⟩, ?_, ?_⟩
  · intro s h
    induction h with
    | refl => simp
    | tail _ step ih =>
      cases step with
      | deliver b st fa ti rest q c =>
        simp [callback] at ih ⊢
        simpa [List.append_assoc] using ih
      | consume p b q c =>
        simp at ih ⊢
        simpa [List.append_assoc] using ih
  · simpa using micReach blocks [] []

/-- A concrete delivery sequence: two blocks, the first with a set status
flag. -/
def demoBlocks : List (List Nat × Option String) :=
  [([1], some "input overflow"), ([2, 3], none)]

/-- Witness for C7: running the two-block session `demoBlocks` to completion
and instantiating the invariant at its final state. -/
theorem callback_queue_fifo_witness :
    MicSt.consumed ⟨[], [], demoBlocks.map Prod.fst⟩ ++
      MicSt.buf ⟨[], [], demoBlocks.map Prod.fst⟩ ++
      (MicSt.pending ⟨[], [], demoBlocks.map Prod.fst⟩).map Prod.fst =
      demoBlocks.map Prod.fst :=
  (callback_queue_fifo demoBlocks).2.2.1 ⟨[], [], demoBlocks.map Prod.fst⟩
    ((callback_queue_fifo demoBlocks).2.2.2)

/-- C8: the model loader returns a model handle exactly when the fixed model
directory exists, and otherwise fails with a descriptive error whose message
names the expected path and the download instructions; and since `main` loads
the model before dispatching to either pipeline, a missing model directory
makes `main` fail with that error before any audio I/O occurs (the event
trace is empty), whichever mode was selected. -/
theorem load_english_model_spec {σ : Type} (isdir : String → Bool)
    (fs : String → Option WavFile) (api : RecognizerAPI σ) (mode : Mode)
    (blocks : List (List Nat)) (cause : ExitCause) :
    (isdir ENGLISH_MODEL_PATH = true →
      load_english_model isdir = .ok ⟨ENGLISH_MODEL_PATH⟩) ∧
    (isdir ENGLISH_MODEL_PATH = false →
      load_english_model isdir = .error modelNotFoundMsg ∧
      mainRun isdir fs api mode blocks cause = (.error modelNotFoundMsg, [])) ∧
    (∃ a b, modelNotFoundMsg = a ++ ENGLISH_MODEL_PATH ++ b) ∧
    (∃ a b, modelNotFoundMsg = a ++ "https://alphacephei.com/vosk/models" ++ b) := by
  refine ⟨?_, ?_, ?_, ?_⟩
  · intro h
    simp [load_english_model, h]
  · intro h
    have hl : load_english_model isdir = .error modelNotFoundMsg := by
      simp [load_english_model, h]
    exact ⟨hl, by simp [mainRun, hl]⟩
  · exact ⟨"English model not found at: ",
      "\n\nDownload this English model:\n  " ++
        "https://alphacephei.com/vosk/models" ++
        "\nModel name:\n  vosk-model-small-en-us-0.15\n\n" ++
        "Unzip it so the folder path is exactly:\n  " ++ ENGLISH_MODEL_PATH,
      rfl⟩
  · exact ⟨"English model not found at: " ++ ENGLISH_MODEL_PATH ++
        "\n\nDownload this English model:\n  ",
      "\nModel name:\n  vosk-model-small-en-us-0.15\n\n" ++
        "Unzip it so the folder path is exactly:\n  " ++ ENGLISH_MODEL_PATH,
      by set_option maxRecDepth 8192 in decide⟩

/-- Witness for C8: a filesystem where the model directory exists, and one
where nothing exists, exercising both branches and the `main`-level
failure. -/
theorem load_english_model_spec_witness :
    load_english_model (fun _ => true) = .ok ⟨ENGLISH_MODEL_PATH⟩ ∧
    load_english_model (fun _ => false) = .error modelNotFoundMsg ∧
    mainRun (fun _ => false) demoFS demoAPI (Mode.file "good.wav") []
      ExitCause.interrupt = (.error modelNotFoundMsg, []) := by
  have ht := load_english_model_spec (fun _ => true) demoFS demoAPI
    (Mode.file "good.wav") [] ExitCause.interrupt
  have hf := load_english_model_spec (fun _ => false) demoFS demoAPI
    (Mode.file "good.wav") [] ExitCause.interrupt
  exact ⟨ht.1 rfl, (hf.2.1 rfl).1, (hf.2.1 rfl).2⟩
